import Mathlib

/-!
Shallow embedding of the vibraphone orchestration core
(`.mcp/servers/vibraphone`): session store, circuit breakers, staging
guard, review aggregation, worktree lifecycle, session recovery and the
dependency-graph cycle detector.  External collaborators (git, the `br`
tracker CLI, the reviewer service, the shell) are modelled as explicit
environment records carrying the observations the code would make, and
each tool is a pure function from (environment, store) to (result,
store, effect trace).
-/

set_option autoImplicit false

namespace Vibraphone

/-! ## Association-list maps (Python `dict[str, ...]` semantics:
insertion order preserved, assignment overwrites in place). -/

section AList

variable {β : Type}

def alistGet : List (String × β) → String → Option β
  | [], _ => none
  | p :: rest, k => if p.1 = k then some p.2 else alistGet rest k

def alistGetD (m : List (String × β)) (k : String) (d : β) : β :=
  (alistGet m k).getD d

def alistSet (m : List (String × β)) (k : String) (v : β) : List (String × β) :=
  if m.any (fun p => p.1 = k) then
    m.map (fun p => if p.1 = k then (k, v) else p)
  else
    m ++ [(k, v)]

theorem alistGet_overwrite_self (m : List (String × β)) (k : String) (v : β)
    (hm : m.any (fun p => p.1 = k) = true) :
    alistGet (m.map (fun p => if p.1 = k then (k, v) else p)) k = some v := by
  induction m with
  | nil => simp at hm
  | cons p rest ih =>
    by_cases hp : p.1 = k
    · simp [alistGet, hp]
    · simp only [List.any_cons] at hm
      have hrest : rest.any (fun q => q.1 = k) = true := by
        rcases Bool.or_eq_true_iff.mp hm with h1 | h1
        · exact absurd (of_decide_eq_true h1) hp
        · exact h1
      simp only [List.map_cons, if_neg hp, alistGet, hp, if_false]
      exact ih hrest

theorem alistGet_append_self (m : List (String × β)) (k : String) (v : β)
    (hm : m.any (fun p => p.1 = k) = false) :
    alistGet (m ++ [(k, v)]) k = some v := by
  induction m with
  | nil => simp [alistGet]
  | cons p rest ih =>
    simp only [List.any_cons, Bool.or_eq_false_iff] at hm
    have hp : ¬ p.1 = k := by simpa using hm.1
    simp only [List.cons_append, alistGet, if_neg hp]
    exact ih hm.2

theorem alistGet_set_self (m : List (String × β)) (k : String) (v : β) :
    alistGet (alistSet m k v) k = some v := by
  unfold alistSet
  by_cases hm : m.any (fun p => p.1 = k) = true
  · rw [if_pos hm]
    exact alistGet_overwrite_self m k v hm
  · rw [if_neg hm]
    exact alistGet_append_self m k v (Bool.of_not_eq_true hm)

theorem alistGet_set_ne (m : List (String × β)) (k t : String) (v : β)
    (h : t ≠ k) : alistGet (alistSet m k v) t = alistGet m t := by
  unfold alistSet
  by_cases hm : m.any (fun p => p.1 = k) = true
  · rw [if_pos hm]
    clear hm
    induction m with
    | nil => rfl
    | cons p rest ih =>
      by_cases hp : p.1 = k
      · have hkt : ¬ (k : String) = t := fun hh => h hh.symm
        have hpt : ¬ p.1 = t := fun hh => hkt (hp ▸ hh)
        simp only [List.map_cons, if_pos hp, alistGet, if_neg hkt, if_neg hpt]
        exact ih
      · simp only [List.map_cons, if_neg hp, alistGet]
        by_cases hpt : p.1 = t
        · simp [hpt]
        · simp only [if_neg hpt]
          exact ih
  · rw [if_neg hm]
    clear hm
    induction m with
    | nil =>
      have hkt : ¬ (k : String) = t := fun hh => h hh.symm
      simp [alistGet, hkt]
    | cons p rest ih =>
      simp only [List.cons_append, alistGet]
      by_cases hpt : p.1 = t
      · simp [hpt]
      · simp only [if_neg hpt]
        exact ih

end AList

/-! ## String helpers.  These mirror the Python string operations the
code uses; they are written by structural recursion over the character
list so that concrete runs reduce inside the kernel. -/

/-- Python `str.split(sep)` for a non-empty separator, by fuel-bounded
recursion on the character list (`fuel = length + 1` always suffices
because every step consumes at least one character). -/
def splitCore (sep : List Char) : Nat → List Char → List Char → List (List Char)
  | 0, cs, acc => [acc.reverse ++ cs]
  | _ + 1, [], acc => [acc.reverse]
  | n + 1, c :: rest, acc =>
    if sep.isPrefixOf (c :: rest) then
      acc.reverse :: splitCore sep n ((c :: rest).drop sep.length) []
    else
      splitCore sep n rest (c :: acc)

/-- Python `s.split(sep)` (list of pieces; `sep` itself never empty in
the embedded code). -/
def pySplit (sep s : String) : List String :=
  if sep.data.isEmpty then [s]
  else (splitCore sep.data (s.data.length + 1) s.data []).map String.mk

/-- Python `str.strip()` with no argument: remove leading and trailing
whitespace. -/
def pyStrip (s : String) : String :=
  String.mk (((s.data.dropWhile Char.isWhitespace).reverse.dropWhile
      Char.isWhitespace).reverse)

/-- Python `str.lower()` (ASCII case, which covers every status string
the code lowercases). -/
def pyLower (s : String) : String :=
  String.mk (s.data.map Char.toLower)

/-! ## POSIX pure-path model (`pathlib.PurePosixPath` as used by
`_is_dangerous`): `parts` drops empty and "." components, `name` is the
last component, `suffix` is the extension of `name` (empty for dotfiles
and for names ending in "."). -/

def posixParts (path : String) : List String :=
  (pySplit "/" path).filter (fun c => c ≠ "" && c ≠ ".")

def posixName (path : String) : String :=
  ((posixParts path).getLast?).getD ""

/-- Extension of a file name following `PurePosixPath.suffix`: the text from
the last dot onward, provided that dot is neither the first nor the last
character of the name. -/
def pySuffix (name : String) : String :=
  let cs := name.data
  match cs.reverse.findIdx? (fun c => c = '.') with
  | none => ""
  | some j =>
    let i := cs.length - 1 - j
    if 0 < i ∧ i < cs.length - 1 then String.mk (cs.drop i) else ""

/-! ## Dangerous-file deny lists (identical in
`tools/review_tools.py` and `tools/quality_tools.py`). -/

def dangerousFilenames : List String :=
  [".env", ".env.local", ".env.production", ".env.staging",
   "credentials.json", "service-account.json", "secrets.json",
   "id_rsa", "id_ed25519"]

def dangerousExtensions : List String :=
  [".pem", ".key", ".p12", ".pfx", ".jks", ".keystore"]

def dangerousPathParts : List String :=
  [".ssh", ".gnupg"]

/-- Embedding of `_is_dangerous` (review_tools.py / quality_tools.py). -/
def is_dangerous (path : String) : Bool :=
  dangerousFilenames.contains (posixName path) ||
  dangerousExtensions.contains (pySuffix (posixName path)) ||
  (posixParts path).any (fun part => dangerousPathParts.contains part)

/-! ## Staging guard shared by `_stage_files` and `git_stage`. -/

/-- Blocked-file warning text used by both staging tools. -/
def blockedMsg (p : String) : String := "Blocked sensitive file: " ++ p

/-- Embedding of the candidate-filter loop of `_stage_files` / `git_stage`:
returns `(safe, warnings)`. -/
def stageSplit (candidates : List String) : List String × List String :=
  candidates.foldl
    (fun acc p =>
      if is_dangerous p then (acc.1, acc.2 ++ [blockedMsg p])
      else (acc.1 ++ [p], acc.2))
    ([], [])

/-- Python `.strip('"')`: remove every leading and trailing double quote. -/
def stripQuotes (s : String) : String :=
  String.mk (((s.data.dropWhile (fun c => c = '"')).reverse.dropWhile
      (fun c => c = '"')).reverse)

/-- Remainder of `s` after the first occurrence of `sep`, if any
(Python `s.split(sep, 1)[1]`). -/
def afterFirst (sep s : String) : Option String :=
  match pySplit sep s with
  | _ :: tl@(_ :: _) => some (String.intercalate sep tl)
  | _ => none

/-- Embedding of one line of `_parse_porcelain` (review_tools.py): the
regex match against `^..\s+(.+)$`, quote stripping, and rename-destination
extraction. -/
def parsePorcelainLine (line : String) : Option String :=
  if pyStrip line = "" then none
  else
    let cs := line.data
    if cs.length < 2 then none
    else
      let after2 := cs.drop 2
      let ws := after2.takeWhile (fun c => c.isWhitespace)
      let rest := after2.dropWhile (fun c => c.isWhitespace)
      if ws.isEmpty then none
      else
        let captured :=
          if rest.isEmpty then
            if ws.length ≥ 2 then some (String.mk [ws.getLast!]) else none
          else some (String.mk rest)
        captured.map (fun cap =>
          let path := stripQuotes cap
          match afterFirst " -> " path with
          | some dest => dest
          | none => path)

/-- Embedding of `_parse_porcelain` (review_tools.py). -/
def parsePorcelain (lines : List String) : List String :=
  lines.filterMap parsePorcelainLine

/-- Embedding of `git_stage`'s inline porcelain parsing (quality_tools.py):
`line[3:].strip().strip('"')` for each non-blank line. -/
def gitStageParseLine (line : String) : Option String :=
  if pyStrip line = "" then none
  else some (stripQuotes (pyStrip (String.mk (line.data.drop 3))))

/-! ## Session store (`utils/session.py`).  The session file is modelled
as `Option SessionState` (`none` = no file); `save_session` is a full
overwrite.  The append-only audit log is not needed by any claim, so
`audit_log` is modelled by its session-state mutation only. -/

/-- Embedding of the `Issue` dict shape `{rule, file, line, severity, message}`. -/
structure Issue where
  rule : String
  file : String
  line : Int
  severity : String
  message : String
deriving Repr, DecidableEq

/-- Embedding of the `SessionState` dataclass (utils/session.py).  The
field `last_review_issues` is `Option` because `request_code_review`
tests it with `is not None`; the dataclass default is the empty list. -/
structure SessionState where
  active_task : Option String := none
  phase : Option String := none
  worktree : Option String := none
  last_action : Option String := none
  last_action_result : Option String := none
  last_action_time : Option String := none
  test_attempts : List (String × Nat) := []
  review_attempts : List (String × Nat) := []
  last_review_status : Option String := none
  last_review_diff_hash : Option String := none
  last_review_issues : Option (List Issue) := some []
deriving Repr, DecidableEq

/-- The durable session file: `none` when `.vibraphone/session.json` is absent. -/
abbrev Store := Option SessionState

/-- Embedding of `load_session() or SessionState()`. -/
def loadOrDefault (store : Store) : SessionState := store.getD {}

/-- Embedding of `increment_test_attempts`: read-modify-write returning
the new count and the saved store. -/
def increment_test_attempts (store : Store) (task_id : String) : Nat × Store :=
  let st := loadOrDefault store
  let count := alistGetD st.test_attempts task_id 0 + 1
  (count, some { st with test_attempts := alistSet st.test_attempts task_id count })

/-- Embedding of `increment_review_attempts`. -/
def increment_review_attempts (store : Store) (task_id : String) : Nat × Store :=
  let st := loadOrDefault store
  let count := alistGetD st.review_attempts task_id 0 + 1
  (count, some { st with review_attempts := alistSet st.review_attempts task_id count })

/-- Embedding of `clear_task`: reset active-task fields, keep counters. -/
def clear_task (store : Store) : Store :=
  let st := loadOrDefault store
  some { st with active_task := none, phase := none, worktree := none,
                 last_review_status := none, last_review_diff_hash := none,
                 last_review_issues := some [] }

/-- Embedding of the session-state mutation performed by `audit_log`
(update `last_action`, `last_action_result`, `last_action_time`, save). -/
def audit_update (store : Store) (tool status now : String) : Store :=
  let st := loadOrDefault store
  some { st with last_action := some tool, last_action_result := some status,
                 last_action_time := some now }

/-! ## Staging tools (`_stage_files` in review_tools.py, `git_stage` in
quality_tools.py).  The observations made of git are an environment
record: status-porcelain output lines and whether `git add` succeeds. -/

structure StageEnv where
  statusLines : List String
  addOk : Bool := true
  addErr : String := ""
deriving Repr, DecidableEq

structure StageResult where
  status : String
  reason : Option String := none
  staged : List String := []
  warnings : List String := []
deriving Repr, DecidableEq

/-- Python truthiness of the `paths` argument (`None` and `[]` are falsy). -/
def pathsTruthy (paths : Option (List String)) : Bool :=
  match paths with
  | none => false
  | some l => !l.isEmpty

/-- Embedding of `_stage_files` (review_tools.py). -/
def stage_files (env : StageEnv) (paths : Option (List String))
    (stage_all : Bool) : StageResult :=
  if pathsTruthy paths && stage_all then
    { status := "error",
      reason := some "Provide either 'paths' or 'stage_all=True', not both." }
  else if !pathsTruthy paths && !stage_all then
    { status := "error", reason := some "Provide either 'paths' or 'stage_all=True'." }
  else
    let candidates :=
      if stage_all then parsePorcelain env.statusLines else paths.getD []
    let split := stageSplit candidates
    if split.1.isEmpty then
      { status := "nothing_to_stage", staged := [], warnings := split.2 }
    else if !env.addOk then
      { status := "error", reason := some env.addErr, staged := [], warnings := split.2 }
    else
      { status := "staged", staged := split.1, warnings := split.2 }

/-- Embedding of `git_stage` (quality_tools.py); on success it also runs
`audit_log`, so the store is threaded through. -/
def git_stage (env : StageEnv) (store : Store) (now : String)
    (paths : Option (List String)) (allFlag : Bool) : StageResult × Store :=
  if pathsTruthy paths = allFlag then
    ({ status := "error",
       reason := some "Provide either 'paths' or 'all=True', not both (or neither)." },
     store)
  else
    let candidates :=
      if allFlag then env.statusLines.filterMap gitStageParseLine else paths.getD []
    let split := stageSplit candidates
    if split.1.isEmpty then
      ({ status := "nothing_to_stage", staged := [], warnings := split.2 }, store)
    else if !env.addOk then
      ({ status := "error", reason := some env.addErr, staged := [],
         warnings := split.2 }, store)
    else
      ({ status := "staged", staged := split.1, warnings := split.2 },
       audit_update store "git_stage" "ok" now)

/-! ## Review pipeline (`request_code_review` in review_tools.py).
The reviewer service, git and the config are an environment record;
the SHA-256 fingerprint of the staged diff is the abstract `diffHash`
observation returned by both `_git_diff_staged_hash` calls. -/

structure ReviewEnv where
  apiKey : Option String := none
  statusLines : List String := []
  addOk : Bool := true
  addErr : String := ""
  stagedDiff : String := ""
  diffHash : String := ""
  constitution : Option String := none
  promptText : Option String := none
  maxReviewAttempts : Nat := 3
  severityThreshold : String := "error"
  reviewParsed : Option (List Issue) := some []
  reviewRaw : String := ""
  now : String := "t"
deriving Repr, DecidableEq

/-- Python truthiness of the API key (`None` and `""` are falsy). -/
def apiKeyValid (k : Option String) : Bool :=
  match k with
  | none => false
  | some s => s ≠ ""

/-- Embedding of the verdict computation of `_perform_review`:
`reviewParsed = none` models a reviewer response that fails to parse as
a JSON array. -/
structure PerformReviewResult where
  status : String
  issues : List Issue
  raw_response : String
  parse_error : Option String := none
deriving Repr, DecidableEq

def perform_review (env : ReviewEnv) : PerformReviewResult :=
  match env.reviewParsed with
  | none =>
    { status := "ESCALATED", issues := [], raw_response := env.reviewRaw,
      parse_error := some "Failed to parse reviewer response as JSON array" }
  | some issues =>
    let blocking := issues.any (fun i =>
      i.severity = "error" ||
      (env.severityThreshold = "warning" && i.severity = "warning"))
    { status := if blocking then "REJECTED" else "APPROVED",
      issues := issues, raw_response := env.reviewRaw }

/-- Result dict of `request_code_review` (fields absent from a given
return path keep their defaults). -/
structure RcrResult where
  status : String
  issues : List Issue := []
  attempt : Option Nat := none
  staged : List String := []
  warnings : List String := []
  reason : Option String := none
  unchanged : Bool := false
  parse_error : Option String := none
deriving Repr, DecidableEq

/-- Output of `request_code_review` with its effect trace: the final
store, whether the reviewer service was invoked, the `previous_issues`
argument passed to it, and the `br update` calls issued. -/
structure RcrOut where
  result : RcrResult
  store : Store
  reviewerCalled : Bool
  reviewerPrev : Option (List Issue)
  brUpdates : List (String × String)
deriving Repr, DecidableEq

/-- Embedding of `_error_result` (review_tools.py). -/
def errorResult (reason : String) (staged : List String)
    (warnings : List String) : RcrResult :=
  { status := "error", issues := [], reason := some reason,
    staged := staged, warnings := warnings }

/-- The unchanged-diff guard of step 6 of `request_code_review`:
stored hash truthy, equal to the current hash, and stored issues not None. -/
def unchangedGuard (st : SessionState) (currentHash : String) : Bool :=
  (match st.last_review_diff_hash with
   | none => false
   | some h => h ≠ "" && h = currentHash) && st.last_review_issues.isSome

/-- Embedding of `request_code_review` (review_tools.py). -/
def request_code_review (env : ReviewEnv) (store : Store)
    (paths : Option (List String)) (stage_all : Bool) : RcrOut :=
  let state := loadOrDefault store
  let task_id := state.active_task.getD "unknown"
  let current_attempts := alistGetD state.review_attempts task_id 0
  -- 1. circuit breaker (`_check_circuit_breaker`)
  if current_attempts ≥ env.maxReviewAttempts then
    let res : RcrResult :=
      { status := "ESCALATED", issues := [], attempt := some current_attempts,
        reason := some ("Max review attempts (" ++ toString env.maxReviewAttempts
                          ++ ") exceeded. Task blocked.") }
    { result := res,
      store := audit_update store "request_code_review" "escalated" env.now,
      reviewerCalled := false, reviewerPrev := none,
      brUpdates := [(task_id, "blocked")] }
  -- 2. API key
  else if !apiKeyValid env.apiKey then
    { result := errorResult "REVIEWER_API_KEY environment variable not set" [] [],
      store := audit_update store "request_code_review" "error" env.now,
      reviewerCalled := false, reviewerPrev := none, brUpdates := [] }
  else
    -- 3. stage files
    let stageRes := stage_files ⟨env.statusLines, env.addOk, env.addErr⟩ paths stage_all
    if stageRes.status ≠ "staged" then
      { result := errorResult (stageRes.reason.getD "No files to stage")
                    stageRes.staged stageRes.warnings,
        store := audit_update store "request_code_review" "error" env.now,
        reviewerCalled := false, reviewerPrev := none, brUpdates := [] }
    else
      let staged_files := stageRes.staged
      let warns := stageRes.warnings
      -- 4. staged diff must be non-empty
      if pyStrip env.stagedDiff = "" then
        { result := errorResult "No staged changes to review" staged_files warns,
          store := audit_update store "request_code_review" "error" env.now,
          reviewerCalled := false, reviewerPrev := none, brUpdates := [] }
      -- 5. review assets
      else if env.constitution.isNone then
        { result := errorResult "Constitution file not found" staged_files warns,
          store := audit_update store "request_code_review" "error" env.now,
          reviewerCalled := false, reviewerPrev := none, brUpdates := [] }
      else if env.promptText.isNone then
        { result := errorResult "Reviewer prompt not found" staged_files warns,
          store := audit_update store "request_code_review" "error" env.now,
          reviewerCalled := false, reviewerPrev := none, brUpdates := [] }
      -- 6. unchanged-diff short circuit
      else if unchangedGuard state env.diffHash then
        let res : RcrResult :=
          { status := state.last_review_status.getD "REJECTED",
            issues := state.last_review_issues.getD [],
            attempt := some current_attempts, staged := staged_files,
            warnings := warns, unchanged := true,
            reason := some "Diff unchanged since last review — fix the issues before resubmitting." }
        { result := res,
          store := audit_update store "request_code_review" "unchanged" env.now,
          reviewerCalled := false, reviewerPrev := none, brUpdates := [] }
      else
        -- 7. execute the review (counter increments here)
        let inc := increment_review_attempts store task_id
        let attempt := inc.1
        let store1 := inc.2
        let prev := if attempt ≥ 2 then state.last_review_issues else none
        let rr := perform_review env
        -- 8. update session state (reload, set review fields, save)
        let st1 := loadOrDefault store1
        let store2 : Store :=
          some { st1 with last_review_status := some rr.status,
                          last_review_diff_hash := some env.diffHash,
                          last_review_issues := some rr.issues }
        -- 9. build result
        let res : RcrResult :=
          { status := rr.status, issues := rr.issues, attempt := some attempt,
            staged := staged_files, warnings := warns,
            parse_error := rr.parse_error }
        { result := res,
          store := audit_update store2 "request_code_review" (pyLower rr.status) env.now,
          reviewerCalled := true, reviewerPrev := prev, brUpdates := [] }

/-! ## `run_tests` (quality_tools.py). -/

structure TestEnv where
  maxTestAttempts : Nat := 5
  shellRc : Int := 0
  shellOut : String := ""
  now : String := "t"
deriving Repr, DecidableEq

structure RunTestsOut where
  status : String
  output : String
  attempt : Nat
  store : Store
  shellRan : Bool
  brUpdates : List (String × String)
deriving Repr, DecidableEq

/-- Embedding of `run_tests`: eager increment, then the test-attempt
circuit breaker, then the shell command. -/
def run_tests (env : TestEnv) (store : Store) : RunTestsOut :=
  let state := loadOrDefault store
  let task_id := state.active_task.getD "unknown"
  let inc := increment_test_attempts store task_id
  let attempt := inc.1
  let store1 := inc.2
  if attempt > env.maxTestAttempts then
    { status := "ESCALATED",
      output := "Max test attempts (" ++ toString env.maxTestAttempts
        ++ ") exceeded. Task blocked.",
      attempt := attempt,
      store := audit_update store1 "run_tests" "escalated" env.now,
      shellRan := false, brUpdates := [(task_id, "blocked")] }
  else
    let status := if env.shellRc = 0 then "pass" else "fail"
    { status := status, output := env.shellOut, attempt := attempt,
      store := audit_update store1 "run_tests" status env.now,
      shellRan := true, brUpdates := [] }

/-! ## Worktree lifecycle (`worktree_tools.py`).  `merge_task` observes
git through an environment record; `cleanup_task` delegates to the
`cleanup-task` Justfile recipe generated by `_render_justfile`
(stack_tools.py), whose git effects are modelled on a small repository
state. -/

/-- Extraction of one conflicted file from a rebase-output line, following
the regex `CONFLICT.*?: .*? in (.+)` of `_parse_conflict_files`. -/
def conflictFileOfLine (line : String) : Option String :=
  match afterFirst "CONFLICT" line with
  | none => none
  | some r1 =>
    match afterFirst ": " r1 with
    | none => none
    | some r2 =>
      match afterFirst " in " r2 with
      | none => none
      | some f => if f = "" then none else some f

/-- Embedding of `_parse_conflict_files`.  The Python code dedups through
`list(set(...))`, whose ordering is unspecified; this model dedups with
`List.dedup` (one fixed order among the admissible ones). -/
def parse_conflict_files (out : String) : List String :=
  ((pySplit "\n" out).filterMap conflictFileOfLine).dedup

structure MergeEnv where
  baseBranch : String := "main"
  statusRc : Int := 0
  statusOut : String := ""
  revRc : Int := 0
  revBranch : String := "main"
  rebaseRc : Int := 0
  rebaseOut : String := ""
  mergeRc : Int := 0
  mergeOut : String := ""
  now : String := "t"
deriving Repr, DecidableEq

structure MergeOut where
  status : String
  reason : Option String := none
  files : Option String := none
  conflicted_files : List String := []
  store : Store
  rebaseRan : Bool
  mergeRan : Bool
deriving Repr, DecidableEq

/-- Embedding of `merge_task` (worktree_tools.py). -/
def merge_task (env : MergeEnv) (store : Store) : MergeOut :=
  -- 1. worktree must have no uncommitted changes
  if env.statusRc ≠ 0 then
    { status := "error",
      reason := some ("Cannot read worktree status: " ++ env.statusOut),
      store := store, rebaseRan := false, mergeRan := false }
  else if env.statusOut ≠ "" then
    { status := "error", reason := some "Worktree has uncommitted changes",
      files := some env.statusOut,
      store := store, rebaseRan := false, mergeRan := false }
  -- 2. primary worktree HEAD must be on the base branch
  else if env.revRc ≠ 0 || env.revBranch ≠ env.baseBranch then
    { status := "error",
      reason := some ("Main worktree is on '" ++ env.revBranch ++ "', expected '"
                        ++ env.baseBranch ++ "'"),
      store := store, rebaseRan := false, mergeRan := false }
  -- 3. rebase the feature branch onto base
  else if env.rebaseRc ≠ 0 then
    { status := "conflict",
      reason := some "Rebase conflict - manual resolution required",
      conflicted_files := parse_conflict_files env.rebaseOut,
      store := audit_update store "merge_task" "conflict" env.now,
      rebaseRan := true, mergeRan := false }
  -- 4. merge with --no-ff
  else if env.mergeRc ≠ 0 then
    { status := "error", reason := some ("Merge failed: " ++ env.mergeOut),
      store := store, rebaseRan := true, mergeRan := true }
  else
    -- 5. set phase := merged (only when a session file exists)
    let store1 : Store :=
      match store with
      | none => none
      | some st => some { st with phase := some "merged" }
    { status := "merged", store := audit_update store1 "merge_task" "ok" env.now,
      rebaseRan := true, mergeRan := true }

/-- Observable git repository state for `cleanup_task`: existing worktree
directories, local branches, and the set of local branches whose tip is an
ancestor of the current HEAD (information the code never consults). -/
structure RepoState where
  worktrees : List String
  branches : List String
  ancestorsOfHead : List String
deriving Repr, DecidableEq

structure CleanupEnv where
  removeOk : Bool := true
  now : String := "t"
deriving Repr, DecidableEq

/-- Effect of the generated `cleanup-task` Justfile recipe
(stack_tools.py `_render_justfile`): `git worktree remove --force` then
`git branch -D feat/{id} 2>/dev/null || true` — an unconditional force
delete whose failure is suppressed. -/
def cleanupRecipe (repo : RepoState) (task_id : String) : RepoState :=
  { repo with worktrees := repo.worktrees.erase ("./worktrees/" ++ task_id),
              branches := repo.branches.erase ("feat/" ++ task_id) }

structure CleanupOut where
  status : String
  worktree_removed : String
  branch_deleted : String
  warnings : Option (List String) := none
  repo : RepoState
  store : Store
deriving Repr, DecidableEq

/-- Embedding of `cleanup_task` (worktree_tools.py): run the Justfile
recipe (a non-zero exit raises, modelled with `Except`), clear the
session, return the fixed result dict — which has no warnings key. -/
def cleanup_task (env : CleanupEnv) (repo : RepoState) (store : Store)
    (task_id : String) : Except String CleanupOut :=
  if !env.removeOk then
    Except.error "just cleanup-task failed"
  else
    let repo1 := cleanupRecipe repo task_id
    let store1 := clear_task store
    Except.ok
      { status := "cleaned",
        worktree_removed := "./worktrees/" ++ task_id,
        branch_deleted := "feat/" ++ task_id,
        warnings := none,
        repo := repo1,
        store := audit_update store1 "cleanup_task" "ok" env.now }

/-! ## Session recovery (`session_tools.py`). -/

structure RecoverEnv where
  nowSec : Int := 0
  parsedTimes : List (String × Int) := []
  trackedStatus : String := "unknown"
  worktreesOnDisk : List String := []
  now : String := "t"
deriving Repr, DecidableEq

/-- Staleness test of `recover_session`: missing, empty or unparseable
`last_action_time` is maximally stale; otherwise stale iff at least
`STALE_SESSION_MINUTES` (30) have elapsed.  `parsedTimes` carries the
timestamps the runtime can parse, in epoch seconds. -/
def isStale (env : RecoverEnv) (lat : Option String) : Bool :=
  match lat with
  | none => true
  | some s =>
    if s = "" then true
    else
      match alistGet env.parsedTimes s with
      | none => true
      | some t => env.nowSec - t ≥ 30 * 60

structure RecoverOut where
  status : String
  action : String
  task_id : Option String := none
  worktree : Option String := none
  reason : Option String := none
  store : Store
  brUpdates : List (String × String) := []
deriving Repr, DecidableEq

/-- Embedding of `recover_session` (session_tools.py). -/
def recover_session (env : RecoverEnv) (store : Store) : RecoverOut :=
  let state? := store
  match state? with
  | none =>
    { status := "clean", action := "none",
      store := audit_update store "recover_session" "ok" env.now }
  | some state =>
    match state.active_task with
    | none =>
      { status := "clean", action := "none",
        store := audit_update store "recover_session" "ok" env.now }
    | some task_id =>
      let worktree := state.worktree
      let stale := isStale env state.last_action_time
      let worktreeExists :=
        match worktree with
        | none => false
        | some w => env.worktreesOnDisk.contains w
      if !stale then
        { status := "active", action := "resume", task_id := some task_id,
          worktree := worktree,
          store := audit_update store "recover_session" "ok" env.now }
      else if env.trackedStatus ≠ "in_progress" then
        { status := "stale", action := "cleaned_up", task_id := some task_id,
          reason := some "task no longer in_progress",
          store := audit_update (clear_task store) "recover_session" "ok" env.now }
      else if !worktreeExists then
        { status := "stale", action := "cleaned_up", task_id := some task_id,
          reason := some "worktree missing",
          store := audit_update (clear_task store) "recover_session" "ok" env.now,
          brUpdates := [(task_id, "open")] }
      else
        { status := "stale", action := "resume", task_id := some task_id,
          worktree := worktree,
          store := audit_update store "recover_session" "ok" env.now }

/-! ## Dependency-graph cycle detection (`detect_cycles` in
utils/br_client.py): three-colour depth-first search over an
insertion-ordered adjacency map. -/

structure TaskRec where
  id : String
  dependencies : List String
deriving Repr, DecidableEq

/-- Python dict assignment `adj[tid] = deps`: overwrite in place or append. -/
def buildAdj (tasks : List TaskRec) : List (String × List String) :=
  tasks.foldl (fun adj t => alistSet adj t.id t.dependencies) []

/-- Neighbour list with `adj.get(node, [])` semantics. -/
def adjGet (adj : List (String × List String)) (k : String) : List String :=
  (alistGet adj k).getD []

inductive Color where
  | white
  | gray
  | black
deriving Repr, DecidableEq

def colorGet (c : List (String × Color)) (k : String) : Option Color :=
  alistGet c k

/-- Colour assignment for an existing key (`color[node] = ...`; `dfs` only
ever recolours keys of the map). -/
def colorPut (c : List (String × Color)) (k : String) (v : Color) :
    List (String × Color) :=
  c.map (fun p => if p.1 = k then (k, v) else p)

/-- Python `path.index(x)`: index of the first occurrence. -/
def pyIndex (l : List String) (x : String) : Nat :=
  match l with
  | [] => 0
  | a :: rest => if a = x then 0 else pyIndex rest x + 1

structure DfsState where
  color : List (String × Color)
  path : List String
  cycles : List (List String)
deriving Repr, DecidableEq

/-- Embedding of the inner `dfs` of `detect_cycles`.  The recursion in
the source terminates because it only descends into white nodes; here the
fuel argument bounds the recursion depth and `detect_cycles` supplies
enough fuel for every node. -/
def dfs (adj : List (String × List String)) :
    Nat → String → DfsState → DfsState
  | 0, _, s => s
  | Nat.succ fuel, node, s =>
    let s1 : DfsState :=
      { s with color := colorPut s.color node Color.gray,
               path := s.path ++ [node] }
    let s2 := (adjGet adj node).foldl
      (fun t nb =>
        if !(t.color.any (fun p => p.1 = nb)) then t
        else
          match colorGet t.color nb with
          | some Color.gray =>
            { t with cycles :=
                t.cycles ++ [(t.path.drop (pyIndex t.path nb)) ++ [nb]] }
          | some Color.white => dfs adj fuel nb t
          | _ => t) s1
    { s2 with path := s2.path.dropLast,
              color := colorPut s2.color node Color.black }

/-- Embedding of `detect_cycles` (utils/br_client.py). -/
def detect_cycles (tasks : List TaskRec) : List (List String) :=
  let adj := buildAdj tasks
  let init : DfsState :=
    { color := adj.map (fun p => (p.1, Color.white)), path := [], cycles := [] }
  let final := adj.foldl
    (fun s p =>
      if colorGet s.color p.1 = some Color.white then dfs adj adj.length p.1 s
      else s)
    init
  final.cycles

/-! ### Cycle vocabulary used to state the claims about `detect_cycles`.
A reported entry has the shape `[v, ..., u, v]`; `isClosedWalk` says the
entry really walks along dependency edges and returns to its start. -/

/-- Consecutive entries are dependency edges of the graph. -/
def chainOk (adj : List (String × List String)) : List String → Bool
  | [] => true
  | [_] => true
  | a :: b :: rest => (adjGet adj a).contains b && chainOk adj (b :: rest)

/-- A non-trivial closed walk along the dependency edges. -/
def isClosedWalk (adj : List (String × List String)) (l : List String) : Bool :=
  decide (2 ≤ l.length) && chainOk adj l && decide (l.head? = l.getLast?)

/-! # Theorems -/

/-! ## Claim C1 — unsafe-file staging guard -/

/-- The deny-list condition as the claim states it: basename on the
credential-filename list, extension on the key-file list, or a
secret-store segment anywhere in the path. -/
def dangerSpec (p : String) : Prop :=
  posixName p ∈ dangerousFilenames ∨
  pySuffix (posixName p) ∈ dangerousExtensions ∨
  ∃ seg ∈ posixParts p, seg ∈ dangerousPathParts

theorem dangerSpec_iff (p : String) : dangerSpec p ↔ is_dangerous p = true := by
  simp only [dangerSpec, is_dangerous, Bool.or_eq_true, List.any_eq_true]
  simp [or_assoc]

theorem stageSplit_go (cands : List String) (s0 w0 : List String) :
    cands.foldl
      (fun acc p =>
        if is_dangerous p then (acc.1, acc.2 ++ [blockedMsg p])
        else (acc.1 ++ [p], acc.2))
      (s0, w0) =
    (s0 ++ cands.filter (fun p => !is_dangerous p),
     w0 ++ (cands.filter (fun p => is_dangerous p)).map blockedMsg) := by
  induction cands generalizing s0 w0 with
  | nil => simp
  | cons a rest ih =>
    by_cases ha : is_dangerous a = true
    · simp [ha, ih, List.filter_cons]
    · simp only [Bool.not_eq_true] at ha
      simp [ha, ih, List.filter_cons]

theorem stageSplit_safe (cands : List String) :
    (stageSplit cands).1 = cands.filter (fun p => !is_dangerous p) := by
  unfold stageSplit
  rw [stageSplit_go]
  simp

theorem stageSplit_warnings (cands : List String) :
    (stageSplit cands).2 = (cands.filter (fun p => is_dangerous p)).map blockedMsg := by
  unfold stageSplit
  rw [stageSplit_go]
  simp

theorem stage_files_staged_no_danger (env : StageEnv) (paths : Option (List String))
    (sa : Bool) (p : String) (hd : is_dangerous p = true) :
    p ∉ (stage_files env paths sa).staged := by
  unfold stage_files
  dsimp only
  split_ifs <;> simp_all [stageSplit_safe, List.mem_filter]

theorem stage_files_warn (env : StageEnv) (paths : Option (List String))
    (sa : Bool) (p : String) (hd : is_dangerous p = true)
    (hv : pathsTruthy paths ≠ sa)
    (hc : p ∈ (if sa then parsePorcelain env.statusLines else paths.getD [])) :
    blockedMsg p ∈ (stage_files env paths sa).warnings := by
  have h1 : (pathsTruthy paths && sa) = false := by
    cases hp : pathsTruthy paths <;> cases hs : sa <;> simp_all
  have h2 : (!pathsTruthy paths && !sa) = false := by
    cases hp : pathsTruthy paths <;> cases hs : sa <;> simp_all
  unfold stage_files
  dsimp only
  rw [h1, h2]
  simp only [Bool.false_eq_true, if_false]
  split_ifs <;>
    simp_all [stageSplit_warnings, List.mem_filter, List.mem_map] <;>
    exact ⟨p, ⟨hc, hd⟩, rfl⟩

theorem git_stage_staged_no_danger (env : StageEnv) (store : Store) (now : String)
    (paths : Option (List String)) (al : Bool) (p : String)
    (hd : is_dangerous p = true) :
    p ∉ (git_stage env store now paths al).1.staged := by
  unfold git_stage
  dsimp only
  split_ifs <;> simp_all [stageSplit_safe, List.mem_filter]

theorem git_stage_warn (env : StageEnv) (store : Store) (now : String)
    (paths : Option (List String)) (al : Bool) (p : String)
    (hd : is_dangerous p = true) (hv : pathsTruthy paths ≠ al)
    (hc : p ∈ (if al then env.statusLines.filterMap gitStageParseLine
               else paths.getD [])) :
    blockedMsg p ∈ (git_stage env store now paths al).1.warnings := by
  unfold git_stage
  dsimp only
  rw [if_neg hv]
  split_ifs <;>
    simp_all [stageSplit_warnings, List.mem_filter, List.mem_map] <;>
    exact ⟨p, ⟨hc, hd⟩, rfl⟩

theorem rcr_staged_cases (env : ReviewEnv) (store : Store)
    (paths : Option (List String)) (sa : Bool) :
    (request_code_review env store paths sa).result.staged = [] ∨
    (request_code_review env store paths sa).result.staged =
      (stage_files ⟨env.statusLines, env.addOk, env.addErr⟩ paths sa).staged := by
  unfold request_code_review
  dsimp only
  split_ifs <;> simp [errorResult]

/-- Claim C1: every path whose basename is on the credential-filename
deny-list, whose extension is on the key-file list, or that contains a
secret-store segment is excluded from the set passed to `git add` by the
candidate filter, by `_stage_files`, by `git_stage` and by
`request_code_review`'s staging step, and (for a well-formed staging call
in which the path is a candidate) a warning entry is produced for it. -/
theorem stage_guard_excludes_sensitive :
    (∀ cands p, dangerSpec p →
        p ∉ (stageSplit cands).1 ∧
        (p ∈ cands → blockedMsg p ∈ (stageSplit cands).2)) ∧
    (∀ env paths sa p, dangerSpec p → p ∉ (stage_files env paths sa).staged) ∧
    (∀ env paths sa p, dangerSpec p → pathsTruthy paths ≠ sa →
        p ∈ (if sa then parsePorcelain env.statusLines else paths.getD []) →
        blockedMsg p ∈ (stage_files env paths sa).warnings) ∧
    (∀ env store now paths al p, dangerSpec p →
        p ∉ (git_stage env store now paths al).1.staged) ∧
    (∀ env store now paths al p, dangerSpec p → pathsTruthy paths ≠ al →
        p ∈ (if al then env.statusLines.filterMap gitStageParseLine
             else paths.getD []) →
        blockedMsg p ∈ (git_stage env store now paths al).1.warnings) ∧
    (∀ env store paths sa p, dangerSpec p →
        p ∉ (request_code_review env store paths sa).result.staged) := by
  refine ⟨?_, ?_, ?_, ?_, ?_, ?_⟩
  · intro cands p hp
    have hd := (dangerSpec_iff p).mp hp
    constructor
    · rw [stageSplit_safe]
      simp [List.mem_filter, hd]
    · intro hc
      rw [stageSplit_warnings]
      simp only [List.mem_map]
      exact ⟨p, List.mem_filter.mpr ⟨hc, hd⟩, rfl⟩
  · intro env paths sa p hp
    exact stage_files_staged_no_danger env paths sa p ((dangerSpec_iff p).mp hp)
  · intro env paths sa p hp hv hc
    exact stage_files_warn env paths sa p ((dangerSpec_iff p).mp hp) hv hc
  · intro env store now paths al p hp
    exact git_stage_staged_no_danger env store now paths al p ((dangerSpec_iff p).mp hp)
  · intro env store now paths al p hp hv hc
    exact git_stage_warn env store now paths al p ((dangerSpec_iff p).mp hp) hv hc
  · intro env store paths sa p hp
    rcases rcr_staged_cases env store paths sa with h | h
    · simp [h]
    · rw [h]
      exact stage_files_staged_no_danger _ paths sa p ((dangerSpec_iff p).mp hp)

/-- Witness for C1 at a concrete call: staging `[".env", "a/.ssh/x",
"k.pem", "ok.py"]` explicitly stages only `ok.py` and warns about each
blocked path. -/
theorem stage_guard_excludes_sensitive_witness :
    ".env" ∉ (stage_files { statusLines := [] }
        (some [".env", "a/.ssh/x", "k.pem", "ok.py"]) false).staged ∧
    blockedMsg "k.pem" ∈ (stage_files { statusLines := [] }
        (some [".env", "a/.ssh/x", "k.pem", "ok.py"]) false).warnings ∧
    "a/.ssh/x" ∉ (git_stage { statusLines := [] } none "t"
        (some [".env", "a/.ssh/x", "k.pem", "ok.py"]) false).1.staged := by
  refine ⟨?_, ?_, ?_⟩
  · exact stage_guard_excludes_sensitive.2.1 { statusLines := [] }
      (some [".env", "a/.ssh/x", "k.pem", "ok.py"]) false ".env"
      (Or.inl (by decide))
  · exact stage_guard_excludes_sensitive.2.2.1 { statusLines := [] }
      (some [".env", "a/.ssh/x", "k.pem", "ok.py"]) false "k.pem"
      (Or.inr (Or.inl (by decide))) (by decide) (by decide)
  · exact stage_guard_excludes_sensitive.2.2.2.1 { statusLines := [] } none "t"
      (some [".env", "a/.ssh/x", "k.pem", "ok.py"]) false "a/.ssh/x"
      (Or.inr (Or.inr ⟨".ssh", by decide, by decide⟩))


/-! ## Claim C2 — review circuit breaker and increment placement -/

theorem loadOrDefault_audit (store : Store) (tool status now : String) :
    loadOrDefault (audit_update store tool status now) =
      { loadOrDefault store with last_action := some tool,
                                 last_action_result := some status,
                                 last_action_time := some now } := rfl

/-- Claim C2: with the recorded review-attempt count at or above the
threshold, `request_code_review` escalates without incrementing the
counter, without invoking the reviewer, and marks the task blocked; and
the counter moves only on the path where the API-key, staging and
diff-existence preconditions all succeeded. -/
theorem review_breaker_escalates_without_increment
    (env : ReviewEnv) (store : Store) (paths : Option (List String)) (sa : Bool) :
    (alistGetD (loadOrDefault store).review_attempts
        ((loadOrDefault store).active_task.getD "unknown") 0 ≥ env.maxReviewAttempts →
      (request_code_review env store paths sa).result.status = "ESCALATED" ∧
      (loadOrDefault (request_code_review env store paths sa).store).review_attempts =
        (loadOrDefault store).review_attempts ∧
      (request_code_review env store paths sa).reviewerCalled = false ∧
      (request_code_review env store paths sa).brUpdates =
        [((loadOrDefault store).active_task.getD "unknown", "blocked")]) ∧
    (alistGetD
        (loadOrDefault (request_code_review env store paths sa).store).review_attempts
        ((loadOrDefault store).active_task.getD "unknown") 0 ≠
      alistGetD (loadOrDefault store).review_attempts
        ((loadOrDefault store).active_task.getD "unknown") 0 →
      alistGetD (loadOrDefault store).review_attempts
          ((loadOrDefault store).active_task.getD "unknown") 0 < env.maxReviewAttempts ∧
      apiKeyValid env.apiKey = true ∧
      (stage_files ⟨env.statusLines, env.addOk, env.addErr⟩ paths sa).status = "staged" ∧
      pyStrip env.stagedDiff ≠ "") := by
  unfold request_code_review
  dsimp only
  split_ifs with h1 h2 h3 h4 h5 h6 h7 h8
  · refine ⟨fun _ => ⟨rfl, rfl, rfl, rfl⟩, fun hne => absurd rfl hne⟩
  · exact ⟨fun hge => absurd hge (not_le.mpr (lt_of_not_ge h1)),
      fun hne => absurd rfl hne⟩
  · exact ⟨fun hge => absurd hge (not_le.mpr (lt_of_not_ge h1)),
      fun hne => absurd rfl hne⟩
  · exact ⟨fun hge => absurd hge (not_le.mpr (lt_of_not_ge h1)),
      fun hne => absurd rfl hne⟩
  · exact ⟨fun hge => absurd hge (not_le.mpr (lt_of_not_ge h1)),
      fun hne => absurd rfl hne⟩
  · exact ⟨fun hge => absurd hge (not_le.mpr (lt_of_not_ge h1)),
      fun hne => absurd rfl hne⟩
  · exact ⟨fun hge => absurd hge (not_le.mpr (lt_of_not_ge h1)),
      fun hne => absurd rfl hne⟩
  all_goals
    refine ⟨fun hge => absurd hge (not_le.mpr (lt_of_not_ge h1)), fun _ => ?_⟩
    exact ⟨lt_of_not_ge h1, by simpa using h2, not_not.mp h3, h4⟩

/-- Witness for C2: three recorded attempts against a threshold of three
escalate, leave the counter untouched, skip the reviewer, and block the
task. -/
theorem review_breaker_witness :
    (request_code_review { maxReviewAttempts := 3 }
        (some { active_task := some "T-1", review_attempts := [("T-1", 3)] })
        none true).result.status = "ESCALATED" ∧
    (loadOrDefault (request_code_review { maxReviewAttempts := 3 }
        (some { active_task := some "T-1", review_attempts := [("T-1", 3)] })
        none true).store).review_attempts = [("T-1", 3)] ∧
    (request_code_review { maxReviewAttempts := 3 }
        (some { active_task := some "T-1", review_attempts := [("T-1", 3)] })
        none true).reviewerCalled = false ∧
    (request_code_review { maxReviewAttempts := 3 }
        (some { active_task := some "T-1", review_attempts := [("T-1", 3)] })
        none true).brUpdates = [("T-1", "blocked")] := by
  have h := (review_breaker_escalates_without_increment { maxReviewAttempts := 3 }
    (some { active_task := some "T-1", review_attempts := [("T-1", 3)] })
    none true).1 (by decide)
  exact ⟨h.1, h.2.1, h.2.2.1, h.2.2.2⟩

/-! ## Claim C3 — eager test-attempt increment and escalation -/

/-- Claim C3: `run_tests` bumps the active task's test counter by exactly
one before anything else, leaves every other task's counter alone, and
once the post-increment count exceeds the threshold it escalates, blocks
the task, and runs no shell command — regardless of what the command
would have returned. -/
theorem test_breaker_increments_then_escalates (env : TestEnv) (store : Store) :
    alistGetD (loadOrDefault (run_tests env store).store).test_attempts
        ((loadOrDefault store).active_task.getD "unknown") 0 =
      alistGetD (loadOrDefault store).test_attempts
        ((loadOrDefault store).active_task.getD "unknown") 0 + 1 ∧
    (∀ t2, t2 ≠ (loadOrDefault store).active_task.getD "unknown" →
      alistGet (loadOrDefault (run_tests env store).store).test_attempts t2 =
        alistGet (loadOrDefault store).test_attempts t2) ∧
    (run_tests env store).attempt =
      alistGetD (loadOrDefault store).test_attempts
        ((loadOrDefault store).active_task.getD "unknown") 0 + 1 ∧
    (alistGetD (loadOrDefault store).test_attempts
        ((loadOrDefault store).active_task.getD "unknown") 0 + 1 > env.maxTestAttempts →
      (run_tests env store).status = "ESCALATED" ∧
      (run_tests env store).shellRan = false ∧
      (run_tests env store).brUpdates =
        [((loadOrDefault store).active_task.getD "unknown", "blocked")]) ∧
    (alistGetD (loadOrDefault store).test_attempts
        ((loadOrDefault store).active_task.getD "unknown") 0 + 1 ≤ env.maxTestAttempts →
      (run_tests env store).shellRan = true) := by
  unfold run_tests increment_test_attempts
  dsimp only
  split_ifs with h1 h2
  · refine ⟨?_, ?_, rfl, fun _ => ⟨rfl, rfl, rfl⟩, fun hle => absurd h1 (not_lt.mpr hle)⟩
    · simp [alistGetD, loadOrDefault, audit_update, alistGet_set_self]
    · intro t2 ht2
      simpa [loadOrDefault, audit_update] using
        alistGet_set_ne (loadOrDefault store).test_attempts
          ((loadOrDefault store).active_task.getD "unknown") t2 _ ht2
  all_goals
    refine ⟨?_, ?_, rfl, fun hgt => absurd hgt h1, fun _ => rfl⟩
    · simp [alistGetD, loadOrDefault, audit_update, alistGet_set_self]
    · intro t2 ht2
      simpa [loadOrDefault, audit_update] using
        alistGet_set_ne (loadOrDefault store).test_attempts
          ((loadOrDefault store).active_task.getD "unknown") t2 _ ht2

/-- Witness for C3: with two recorded attempts against a threshold of
two, a further call comes back escalated without running anything, and
the counter reads three. -/
theorem test_breaker_witness :
    alistGetD (loadOrDefault (run_tests { maxTestAttempts := 2 }
        (some { active_task := some "T-1",
                test_attempts := [("T-1", 2), ("T-2", 1)] })).store).test_attempts
        "T-1" 0 = 3 ∧
    alistGet (loadOrDefault (run_tests { maxTestAttempts := 2 }
        (some { active_task := some "T-1",
                test_attempts := [("T-1", 2), ("T-2", 1)] })).store).test_attempts
        "T-2" = some 1 ∧
    (run_tests { maxTestAttempts := 2 }
        (some { active_task := some "T-1",
                test_attempts := [("T-1", 2), ("T-2", 1)] })).status = "ESCALATED" ∧
    (run_tests { maxTestAttempts := 2 }
        (some { active_task := some "T-1",
                test_attempts := [("T-1", 2), ("T-2", 1)] })).shellRan = false := by
  have h := test_breaker_increments_then_escalates { maxTestAttempts := 2 }
    (some { active_task := some "T-1", test_attempts := [("T-1", 2), ("T-2", 1)] })
  have h4 := h.2.2.2.1 (by decide)
  refine ⟨by simpa using h.1, ?_, h4.1, h4.2.1⟩
  have h2 := h.2.1 "T-2" (by decide)
  simpa using h2

/-! ## Claim C10 — shared "unknown" fallback counter -/

/-- Claim C10: with no active task, `run_tests` and `request_code_review`
charge their attempts to the literal key "unknown"; the breakers
increment and trip on that one counter, and escalation tries to block
the tracker task with id "unknown". -/
theorem unknown_task_fallback (tenv : TestEnv) (renv : ReviewEnv) (store : Store)
    (hactive : (loadOrDefault store).active_task = none) :
    (alistGetD (loadOrDefault (run_tests tenv store).store).test_attempts "unknown" 0 =
      alistGetD (loadOrDefault store).test_attempts "unknown" 0 + 1) ∧
    (alistGetD (loadOrDefault store).test_attempts "unknown" 0 + 1 > tenv.maxTestAttempts →
      (run_tests tenv store).status = "ESCALATED" ∧
      (run_tests tenv store).brUpdates = [("unknown", "blocked")]) ∧
    (alistGetD (loadOrDefault store).review_attempts "unknown" 0 ≥ renv.maxReviewAttempts →
      (request_code_review renv store none true).result.status = "ESCALATED" ∧
      (request_code_review renv store none true).brUpdates = [("unknown", "blocked")]) := by
  have htid : (loadOrDefault store).active_task.getD "unknown" = "unknown" := by
    rw [hactive]
    rfl
  have ht := test_breaker_increments_then_escalates tenv store
  rw [htid] at ht
  have hr := review_breaker_escalates_without_increment renv store none true
  rw [htid] at hr
  refine ⟨ht.1, fun hgt => ?_, fun hge => ?_⟩
  · have h4 := ht.2.2.2.1 hgt
    exact ⟨h4.1, h4.2.2⟩
  · have h1 := hr.1 hge
    exact ⟨h1.1, h1.2.2.2⟩

/-- Witness for C10: with no session file, two run_tests-style recorded
attempts at key "unknown" against a threshold of two escalate and target
tracker id "unknown"; likewise for the review breaker. -/
theorem unknown_task_fallback_witness :
    alistGetD (loadOrDefault (run_tests { maxTestAttempts := 2 }
        (some { test_attempts := [("unknown", 2)] })).store).test_attempts
      "unknown" 0 = 3 ∧
    (run_tests { maxTestAttempts := 2 }
        (some { test_attempts := [("unknown", 2)] })).status = "ESCALATED" ∧
    (run_tests { maxTestAttempts := 2 }
        (some { test_attempts := [("unknown", 2)] })).brUpdates =
      [("unknown", "blocked")] ∧
    (request_code_review { maxReviewAttempts := 1 }
        (some { review_attempts := [("unknown", 1)] }) none true).brUpdates =
      [("unknown", "blocked")] := by
  have h := unknown_task_fallback { maxTestAttempts := 2 } { maxReviewAttempts := 1 }
    (some { test_attempts := [("unknown", 2)] }) (by decide)
  have h2 := h.2.1 (by decide)
  have hrev := unknown_task_fallback { maxTestAttempts := 2 } { maxReviewAttempts := 1 }
    (some { review_attempts := [("unknown", 1)] }) (by decide)
  have h3 := hrev.2.2 (by decide)
  exact ⟨by simpa using h.1, h2.1, h2.2, h3.2⟩

/-! ## Claim C4 — unchanged-diff short circuit -/

/-- Run characterization: when the breaker, API-key, staging, diff and
asset checks pass and the stored fingerprint matches, the call takes the
unchanged-diff branch. -/
theorem rcr_unchanged_run (env : ReviewEnv) (store : Store)
    (paths : Option (List String)) (sa : Bool)
    (hcnt : alistGetD (loadOrDefault store).review_attempts
        ((loadOrDefault store).active_task.getD "unknown") 0 < env.maxReviewAttempts)
    (hkey : apiKeyValid env.apiKey = true)
    (hstage : (stage_files ⟨env.statusLines, env.addOk, env.addErr⟩ paths sa).status = "staged")
    (hdiff : pyStrip env.stagedDiff ≠ "")
    (hconst : env.constitution.isSome = true)
    (hprompt : env.promptText.isSome = true)
    (hguard : unchangedGuard (loadOrDefault store) env.diffHash = true) :
    (request_code_review env store paths sa).result.status =
      (loadOrDefault store).last_review_status.getD "REJECTED" ∧
    (request_code_review env store paths sa).result.issues =
      (loadOrDefault store).last_review_issues.getD [] ∧
    (request_code_review env store paths sa).result.unchanged = true ∧
    (request_code_review env store paths sa).reviewerCalled = false ∧
    (request_code_review env store paths sa).store =
      audit_update store "request_code_review" "unchanged" env.now ∧
    (request_code_review env store paths sa).brUpdates = [] := by
  unfold request_code_review
  dsimp only
  split_ifs with h1 h2 h3 h4 h5
  · exact absurd h1 (not_le.mpr hcnt)
  · rw [hkey] at h2
    simp at h2
  · exact absurd hstage h3
  · rw [Option.isNone_iff_eq_none] at h4
    rw [h4] at hconst
    simp at hconst
  · rw [Option.isNone_iff_eq_none] at h5
    rw [h5] at hprompt
    simp at hprompt
  · exact ⟨rfl, rfl, rfl, rfl, rfl, rfl⟩

/-- Run characterization of the full review path: breaker untripped, all
preconditions pass, fingerprint differs or no prior issue set. -/
theorem rcr_main_run (env : ReviewEnv) (store : Store)
    (paths : Option (List String)) (sa : Bool)
    (hcnt : alistGetD (loadOrDefault store).review_attempts
        ((loadOrDefault store).active_task.getD "unknown") 0 < env.maxReviewAttempts)
    (hkey : apiKeyValid env.apiKey = true)
    (hstage : (stage_files ⟨env.statusLines, env.addOk, env.addErr⟩ paths sa).status = "staged")
    (hdiff : pyStrip env.stagedDiff ≠ "")
    (hconst : env.constitution.isSome = true)
    (hprompt : env.promptText.isSome = true)
    (hguard : unchangedGuard (loadOrDefault store) env.diffHash = false) :
    (request_code_review env store paths sa).reviewerCalled = true ∧
    (alistGetD (loadOrDefault store).review_attempts
        ((loadOrDefault store).active_task.getD "unknown") 0 + 1 ≥ 2 →
      (request_code_review env store paths sa).reviewerPrev =
        (loadOrDefault store).last_review_issues) ∧
    (alistGetD (loadOrDefault store).review_attempts
        ((loadOrDefault store).active_task.getD "unknown") 0 + 1 < 2 →
      (request_code_review env store paths sa).reviewerPrev = none) ∧
    (request_code_review env store paths sa).result.status = (perform_review env).status ∧
    (request_code_review env store paths sa).result.issues = (perform_review env).issues ∧
    (request_code_review env store paths sa).result.attempt =
      some (alistGetD (loadOrDefault store).review_attempts
        ((loadOrDefault store).active_task.getD "unknown") 0 + 1) ∧
    (loadOrDefault (request_code_review env store paths sa).store).active_task =
      (loadOrDefault store).active_task ∧
    (loadOrDefault (request_code_review env store paths sa).store).last_review_status =
      some (perform_review env).status ∧
    (loadOrDefault (request_code_review env store paths sa).store).last_review_diff_hash =
      some env.diffHash ∧
    (loadOrDefault (request_code_review env store paths sa).store).last_review_issues =
      some (perform_review env).issues ∧
    (loadOrDefault (request_code_review env store paths sa).store).review_attempts =
      alistSet (loadOrDefault store).review_attempts
        ((loadOrDefault store).active_task.getD "unknown")
        (alistGetD (loadOrDefault store).review_attempts
          ((loadOrDefault store).active_task.getD "unknown") 0 + 1) := by
  have hguard2 : ¬ (unchangedGuard (loadOrDefault store) env.diffHash = true) := by
    simp [hguard]
  unfold request_code_review increment_review_attempts
  dsimp only
  split_ifs with h1 h2 h3 h4 h5 h6
  · exact absurd h1 (not_le.mpr hcnt)
  · rw [hkey] at h2
    simp at h2
  · exact absurd hstage h3
  · rw [Option.isNone_iff_eq_none] at h4
    rw [h4] at hconst
    simp at hconst
  · rw [Option.isNone_iff_eq_none] at h5
    rw [h5] at hprompt
    simp at hprompt
  · exact ⟨rfl, fun _ => rfl, fun hlt => absurd h6 (not_le.mpr hlt),
      rfl, rfl, rfl, rfl, rfl, rfl, rfl, rfl⟩
  · exact ⟨rfl, fun hge => absurd hge h6, fun _ => rfl,
      rfl, rfl, rfl, rfl, rfl, rfl, rfl, rfl⟩

/-- Claim C4: when the stored diff fingerprint equals the current staged
diff's fingerprint and prior review issues exist (and the call passes the
breaker/key/staging/diff/asset preconditions), `request_code_review`
returns the stored verdict and issue set tagged unchanged, makes no
reviewer call, and leaves the attempt counters untouched; consequently a
second review of an identical staged diff returns the first call's
verdict and issue set. -/
theorem unchanged_diff_short_circuit (env : ReviewEnv) (store : Store)
    (paths : Option (List String)) (sa : Bool) :
    ((alistGetD (loadOrDefault store).review_attempts
          ((loadOrDefault store).active_task.getD "unknown") 0 < env.maxReviewAttempts) →
      apiKeyValid env.apiKey = true →
      (stage_files ⟨env.statusLines, env.addOk, env.addErr⟩ paths sa).status = "staged" →
      pyStrip env.stagedDiff ≠ "" →
      env.constitution.isSome = true →
      env.promptText.isSome = true →
      (loadOrDefault store).last_review_diff_hash = some env.diffHash →
      env.diffHash ≠ "" →
      (loadOrDefault store).last_review_issues ≠ none →
      (request_code_review env store paths sa).result.status =
        (loadOrDefault store).last_review_status.getD "REJECTED" ∧
      (request_code_review env store paths sa).result.issues =
        (loadOrDefault store).last_review_issues.getD [] ∧
      (request_code_review env store paths sa).result.unchanged = true ∧
      (request_code_review env store paths sa).reviewerCalled = false ∧
      (loadOrDefault (request_code_review env store paths sa).store).review_attempts =
        (loadOrDefault store).review_attempts ∧
      (request_code_review env store paths sa).brUpdates = []) ∧
    ((alistGetD (loadOrDefault store).review_attempts
          ((loadOrDefault store).active_task.getD "unknown") 0 + 1 < env.maxReviewAttempts) →
      apiKeyValid env.apiKey = true →
      (stage_files ⟨env.statusLines, env.addOk, env.addErr⟩ paths sa).status = "staged" →
      pyStrip env.stagedDiff ≠ "" →
      env.constitution.isSome = true →
      env.promptText.isSome = true →
      env.diffHash ≠ "" →
      (request_code_review env
          (request_code_review env store paths sa).store paths sa).result.status =
        (request_code_review env store paths sa).result.status ∧
      (request_code_review env
          (request_code_review env store paths sa).store paths sa).result.issues =
        (request_code_review env store paths sa).result.issues ∧
      (request_code_review env
          (request_code_review env store paths sa).store paths sa).result.unchanged = true ∧
      (loadOrDefault (request_code_review env
          (request_code_review env store paths sa).store paths sa).store).review_attempts =
        (loadOrDefault (request_code_review env store paths sa).store).review_attempts) := by
  constructor
  · intro hcnt hkey hstage hdiff hconst hprompt hhash hne hiss
    have hguard : unchangedGuard (loadOrDefault store) env.diffHash = true := by
      unfold unchangedGuard
      rw [hhash]
      simp [hne, Option.isSome_iff_ne_none, hiss]
    have h := rcr_unchanged_run env store paths sa hcnt hkey hstage hdiff hconst hprompt hguard
    refine ⟨h.1, h.2.1, h.2.2.1, h.2.2.2.1, ?_, h.2.2.2.2.2⟩
    rw [h.2.2.2.2.1]
    rfl
  · intro hcnt2 hkey hstage hdiff hconst hprompt hne
    have hcnt : alistGetD (loadOrDefault store).review_attempts
        ((loadOrDefault store).active_task.getD "unknown") 0 < env.maxReviewAttempts :=
      Nat.lt_of_succ_lt hcnt2
    cases hg : unchangedGuard (loadOrDefault store) env.diffHash
    · -- first call performs a real review
      have h1 := rcr_main_run env store paths sa hcnt hkey hstage hdiff hconst hprompt hg
      have hstatus1 := h1.2.2.2.1
      have hissues1 := h1.2.2.2.2.1
      have hactive := h1.2.2.2.2.2.2.1
      have hstat := h1.2.2.2.2.2.2.2.1
      have hhash2 := h1.2.2.2.2.2.2.2.2.1
      have hiss2 := h1.2.2.2.2.2.2.2.2.2.1
      have hatt2 := h1.2.2.2.2.2.2.2.2.2.2
      have hcntB : alistGetD
          (loadOrDefault (request_code_review env store paths sa).store).review_attempts
          ((loadOrDefault (request_code_review env store paths sa).store).active_task.getD
            "unknown") 0 < env.maxReviewAttempts := by
        rw [hactive, hatt2]
        simpa [alistGetD, alistGet_set_self] using hcnt2
      have hguardB : unchangedGuard
          (loadOrDefault (request_code_review env store paths sa).store) env.diffHash = true := by
        unfold unchangedGuard
        rw [hhash2, hiss2]
        simp [hne]
      have h2 := rcr_unchanged_run env (request_code_review env store paths sa).store
        paths sa hcntB hkey hstage hdiff hconst hprompt hguardB
      refine ⟨?_, ?_, h2.2.2.1, ?_⟩
      · rw [h2.1, hstat, hstatus1]
        rfl
      · rw [h2.2.1, hiss2, hissues1]
        rfl
      · rw [h2.2.2.2.2.1]
        rfl
    · -- first call already took the unchanged branch
      have h1 := rcr_unchanged_run env store paths sa hcnt hkey hstage hdiff hconst hprompt hg
      have hstore1 := h1.2.2.2.2.1
      have hcntB : alistGetD
          (loadOrDefault (request_code_review env store paths sa).store).review_attempts
          ((loadOrDefault (request_code_review env store paths sa).store).active_task.getD
            "unknown") 0 < env.maxReviewAttempts := by
        rw [hstore1]
        exact hcnt
      have hguardB : unchangedGuard
          (loadOrDefault (request_code_review env store paths sa).store) env.diffHash = true := by
        rw [hstore1]
        exact hg
      have h2 := rcr_unchanged_run env (request_code_review env store paths sa).store
        paths sa hcntB hkey hstage hdiff hconst hprompt hguardB
      refine ⟨?_, ?_, h2.2.2.1, ?_⟩
      · rw [h2.1, h1.1, hstore1]
        rfl
      · rw [h2.2.1, h1.2.1, hstore1]
        rfl
      · rw [h2.2.2.2.2.1, hstore1]
        rfl

/-- Concrete issue, environment and store for the C4 witness. -/
def issueC4 : Issue :=
  { rule := "r1", file := "f1", line := 10, severity := "error", message := "m" }

def envC4 : ReviewEnv :=
  { apiKey := some "k", statusLines := [], addOk := true,
    stagedDiff := "diff text", diffHash := "h1",
    constitution := some "c", promptText := some "p",
    maxReviewAttempts := 3, reviewParsed := some [], now := "t" }

def storeC4 : Store :=
  some { active_task := some "T-1", review_attempts := [("T-1", 1)],
         last_review_status := some "REJECTED",
         last_review_diff_hash := some "h1",
         last_review_issues := some [issueC4] }

/-- Witness for C4: a matching stored fingerprint with one prior issue
returns the stored REJECTED verdict and issue set tagged unchanged,
without a reviewer call or counter increment. -/
theorem unchanged_diff_short_circuit_witness :
    (request_code_review envC4 storeC4 (some ["a.py"]) false).result.status = "REJECTED" ∧
    (request_code_review envC4 storeC4 (some ["a.py"]) false).result.issues = [issueC4] ∧
    (request_code_review envC4 storeC4 (some ["a.py"]) false).result.unchanged = true ∧
    (request_code_review envC4 storeC4 (some ["a.py"]) false).reviewerCalled = false ∧
    (loadOrDefault (request_code_review envC4 storeC4
        (some ["a.py"]) false).store).review_attempts = [("T-1", 1)] := by
  have h := (unchanged_diff_short_circuit envC4 storeC4 (some ["a.py"]) false).1
    (by decide) (by decide) (by decide) (by decide) (by decide) (by decide)
    (by decide) (by decide) (by decide)
  exact ⟨by simpa using h.1, by simpa using h.2.1, h.2.2.1, h.2.2.2.1,
    by simpa using h.2.2.2.2.1⟩

/-! ## Claim C5 — cross-attempt issue aggregation.

The source passes the previous attempt's issues to the reviewer prompt
(asking it not to echo resolved issues) but performs no local union or
(rule, file, line) dedup: the recorded and returned issue set is exactly
the current attempt's reviewer output, so a prior issue the latest pass
omits disappears from the report. -/

def issueC5 : Issue :=
  { rule := "r1", file := "f1", line := 10, severity := "error", message := "m" }

def envC5 : ReviewEnv :=
  { apiKey := some "k", statusLines := [], addOk := true,
    stagedDiff := "diff text", diffHash := "h2",
    constitution := some "c", promptText := some "p",
    maxReviewAttempts := 3, reviewParsed := some [], now := "t" }

def storeC5 : Store :=
  some { active_task := some "T-1", review_attempts := [("T-1", 1)],
         last_review_status := some "REJECTED",
         last_review_diff_hash := some "h1",
         last_review_issues := some [issueC5] }

/-- Counterexample to C5 as stated: on attempt 2, with prior issue set
`[{r1,f1,10}]` and the reviewer returning `[]`, the recorded and returned
issue set is `[]` — the unresolved prior issue does not persist, so the
result is not the (rule, file, line)-union of current and previous
issues. -/
theorem issue_union_counterexample :
    (request_code_review envC5 storeC5 (some ["a.py"]) false).result.attempt = some 2 ∧
    (request_code_review envC5 storeC5 (some ["a.py"]) false).reviewerPrev = some [issueC5] ∧
    (loadOrDefault storeC5).last_review_issues = some [issueC5] ∧
    (request_code_review envC5 storeC5 (some ["a.py"]) false).result.issues = [] ∧
    (loadOrDefault (request_code_review envC5 storeC5
        (some ["a.py"]) false).store).last_review_issues = some [] := by
  refine ⟨?_, ?_, rfl, ?_, ?_⟩ <;> decide

/-- Amended claim C5: from the second real attempt onward the previous
attempt's issues are passed to the reviewer call, and the issue set
recorded and returned is exactly the current attempt's reviewer output —
no union with the previous attempt's issues is formed. -/
theorem issues_are_latest_pass_only (env : ReviewEnv) (store : Store)
    (paths : Option (List String)) (sa : Bool) (prevIss : List Issue)
    (hcnt : alistGetD (loadOrDefault store).review_attempts
        ((loadOrDefault store).active_task.getD "unknown") 0 < env.maxReviewAttempts)
    (hkey : apiKeyValid env.apiKey = true)
    (hstage : (stage_files ⟨env.statusLines, env.addOk, env.addErr⟩ paths sa).status = "staged")
    (hdiff : pyStrip env.stagedDiff ≠ "")
    (hconst : env.constitution.isSome = true)
    (hprompt : env.promptText.isSome = true)
    (hguard : unchangedGuard (loadOrDefault store) env.diffHash = false)
    (hsecond : 1 ≤ alistGetD (loadOrDefault store).review_attempts
        ((loadOrDefault store).active_task.getD "unknown") 0)
    (hprev : (loadOrDefault store).last_review_issues = some prevIss) :
    (request_code_review env store paths sa).reviewerCalled = true ∧
    (request_code_review env store paths sa).reviewerPrev = some prevIss ∧
    (request_code_review env store paths sa).result.issues = (perform_review env).issues ∧
    (loadOrDefault (request_code_review env store paths sa).store).last_review_issues =
      some (perform_review env).issues := by
  have h := rcr_main_run env store paths sa hcnt hkey hstage hdiff hconst hprompt hguard
  refine ⟨h.1, ?_, h.2.2.2.2.1, h.2.2.2.2.2.2.2.2.2.1⟩
  have hp := h.2.1 (Nat.succ_le_succ hsecond)
  rw [hp, hprev]

/-- Witness for the amended C5 at the counterexample's input: attempt 2
passes the stored issue to the reviewer and records exactly the
reviewer's empty output. -/
theorem issues_are_latest_pass_only_witness :
    (request_code_review envC5 storeC5 (some ["a.py"]) false).reviewerCalled = true ∧
    (request_code_review envC5 storeC5 (some ["a.py"]) false).reviewerPrev = some [issueC5] ∧
    (request_code_review envC5 storeC5 (some ["a.py"]) false).result.issues =
      (perform_review envC5).issues := by
  have h := issues_are_latest_pass_only envC5 storeC5 (some ["a.py"]) false [issueC5]
    (by decide) (by decide) (by decide) (by decide) (by decide) (by decide)
    (by decide) (by decide) (by decide)
  exact ⟨h.1, h.2.1, h.2.2.1⟩

/-! ## Claim C6 — merge preconditions are non-mutating -/

/-- Claim C6: when the task worktree has uncommitted changes or the
primary working copy is not on the configured base branch, `merge_task`
returns a structured error, runs neither rebase nor merge, and leaves
the session store — phase, active task and counters included — exactly
as it was. -/
theorem merge_preconditions_no_mutation (env : MergeEnv) (store : Store)
    (h : env.statusOut ≠ "" ∨ env.revBranch ≠ env.baseBranch) :
    (merge_task env store).status = "error" ∧
    (merge_task env store).store = store ∧
    (merge_task env store).rebaseRan = false ∧
    (merge_task env store).mergeRan = false ∧
    (loadOrDefault (merge_task env store).store).phase = (loadOrDefault store).phase ∧
    (loadOrDefault (merge_task env store).store).active_task =
      (loadOrDefault store).active_task ∧
    (loadOrDefault (merge_task env store).store).test_attempts =
      (loadOrDefault store).test_attempts ∧
    (loadOrDefault (merge_task env store).store).review_attempts =
      (loadOrDefault store).review_attempts := by
  unfold merge_task
  dsimp only
  split_ifs with h1 h2 h3 h4 h5
  · exact ⟨rfl, rfl, rfl, rfl, rfl, rfl, rfl, rfl⟩
  · exact ⟨rfl, rfl, rfl, rfl, rfl, rfl, rfl, rfl⟩
  · exact ⟨rfl, rfl, rfl, rfl, rfl, rfl, rfl, rfl⟩
  all_goals
    rcases h with ha | hb
    · exact absurd ha h2
    · simp only [Bool.or_eq_true, decide_eq_true_eq, not_or] at h3
      exact absurd hb h3.2

/-- Witness for C6: a dirty worktree makes `merge_task` fail closed with
no store write and no rebase. -/
theorem merge_preconditions_no_mutation_witness :
    (merge_task { statusOut := " M f.py" }
      (some { active_task := some "T-1", phase := some "working" })).status = "error" ∧
    (merge_task { statusOut := " M f.py" }
      (some { active_task := some "T-1", phase := some "working" })).store =
      some { active_task := some "T-1", phase := some "working" } ∧
    (merge_task { statusOut := " M f.py" }
      (some { active_task := some "T-1", phase := some "working" })).rebaseRan = false ∧
    (merge_task { statusOut := " M f.py" }
      (some { active_task := some "T-1", phase := some "working" })).mergeRan = false := by
  have h := merge_preconditions_no_mutation { statusOut := " M f.py" }
    (some { active_task := some "T-1", phase := some "working" })
    (Or.inl (by decide))
  exact ⟨h.1, h.2.1, h.2.2.1, h.2.2.2.1⟩

/-! ## Claim C8 — stale session whose task is no longer in progress -/

/-- Claim C8: a stale session (missing or unparseable timestamps count
as stale) whose tracked task status is no longer `in_progress` makes
`recover_session` return stale/cleaned_up with reason "task no longer
in_progress" and clear the active task. -/
theorem recover_stale_not_in_progress_cleans (env : RecoverEnv) (store : Store)
    (st : SessionState) (tid : String)
    (hstore : store = some st)
    (hactive : st.active_task = some tid)
    (hstale : isStale env st.last_action_time = true)
    (htracked : env.trackedStatus ≠ "in_progress") :
    (recover_session env store).status = "stale" ∧
    (recover_session env store).action = "cleaned_up" ∧
    (recover_session env store).task_id = some tid ∧
    (recover_session env store).reason = some "task no longer in_progress" ∧
    (loadOrDefault (recover_session env store).store).active_task = none := by
  subst hstore
  unfold recover_session
  dsimp only
  rw [hactive]
  dsimp only
  split_ifs with h1
  · rw [hstale] at h1
    simp at h1
  · exact ⟨rfl, rfl, rfl, rfl, rfl⟩

/-- Witness for C8 at a session with no parseable timestamp and a closed
tracked task. -/
theorem recover_stale_not_in_progress_cleans_witness :
    (recover_session { trackedStatus := "closed" }
      (some { active_task := some "T-1", worktree := some "./worktrees/T-1" })).status =
      "stale" ∧
    (recover_session { trackedStatus := "closed" }
      (some { active_task := some "T-1",
              worktree := some "./worktrees/T-1" })).action = "cleaned_up" ∧
    (recover_session { trackedStatus := "closed" }
      (some { active_task := some "T-1", worktree := some "./worktrees/T-1" })).reason =
      some "task no longer in_progress" ∧
    (loadOrDefault (recover_session { trackedStatus := "closed" }
      (some { active_task := some "T-1",
              worktree := some "./worktrees/T-1" })).store).active_task = none := by
  have h := recover_stale_not_in_progress_cleans { trackedStatus := "closed" }
    (some { active_task := some "T-1", worktree := some "./worktrees/T-1" })
    { active_task := some "T-1", worktree := some "./worktrees/T-1" } "T-1"
    rfl rfl (by decide) (by decide)
  exact ⟨h.1, h.2.1, h.2.2.2.1, h.2.2.2.2⟩

/-! ## Claim C7 — cleanup deletes the branch without an ancestry check.

The generated `cleanup-task` recipe runs `git branch -D feat/{id}
2>/dev/null || true`: it never consults whether the branch tip is an
ancestor of HEAD, never skips the deletion, and attaches no warning. -/

def envC7 : CleanupEnv := { removeOk := true, now := "t" }

/-- A repository in which `feat/T-1` is *not* an ancestor of HEAD. -/
def repoC7 : RepoState :=
  { worktrees := ["./worktrees/T-1"],
    branches := ["main", "feat/T-1"],
    ancestorsOfHead := ["main"] }

def storeC7 : Store :=
  some { active_task := some "T-1", worktree := some "./worktrees/T-1",
         phase := some "merged" }

/-- Counterexample to C7 as stated: with `feat/T-1` not an ancestor of
HEAD, `cleanup_task` still force-deletes the branch and attaches no
warning, instead of skipping the deletion with a warning. -/
theorem cleanup_force_deletes_counterexample :
    repoC7.ancestorsOfHead.contains "feat/T-1" = false ∧
    (cleanup_task envC7 repoC7 storeC7 "T-1").map
        (fun o => (o.status, o.repo.branches, o.warnings)) =
      Except.ok ("cleaned", ["main"], none) := by
  constructor
  · decide
  · rfl

/-- Amended claim C7: whenever the recipe's `git worktree remove`
succeeds, `cleanup_task` removes the working-copy directory and
force-deletes the local task branch unconditionally — with no
ancestor-of-HEAD verification, no skip, and no warning — and clears the
active-task session fields. -/
theorem cleanup_unconditional_delete (env : CleanupEnv) (repo : RepoState)
    (store : Store) (task_id : String) (o : CleanupOut)
    (hok : cleanup_task env repo store task_id = Except.ok o) :
    o.status = "cleaned" ∧
    o.repo.worktrees = repo.worktrees.erase ("./worktrees/" ++ task_id) ∧
    o.repo.branches = repo.branches.erase ("feat/" ++ task_id) ∧
    o.warnings = none ∧
    (loadOrDefault o.store).active_task = none := by
  unfold cleanup_task at hok
  split_ifs at hok with h1
  cases hok
  exact ⟨rfl, rfl, rfl, rfl, rfl⟩

/-- Witness for the amended C7 at the counterexample's repository. -/
theorem cleanup_unconditional_delete_witness :
    (cleanup_task envC7 repoC7 storeC7 "T-1").map
        (fun o => (o.status, o.repo.branches, o.warnings,
          (loadOrDefault o.store).active_task)) =
      Except.ok ("cleaned", ["main"], none, none) := by
  have hok : cleanup_task envC7 repoC7 storeC7 "T-1" = Except.ok
      { status := "cleaned", worktree_removed := "./worktrees/T-1",
        branch_deleted := "feat/T-1", warnings := none,
        repo := cleanupRecipe repoC7 "T-1",
        store := audit_update (clear_task storeC7) "cleanup_task" "ok" "t" } := rfl
  have h := cleanup_unconditional_delete envC7 repoC7 storeC7 "T-1" _ hok
  rw [hok]
  simp only [Except.map]
  refine congrArg Except.ok ?_
  rw [h.2.2.1]
  decide

/-! ## Claim C9 — cycle detection.  Soundness of the DFS: every reported
entry is a genuine closed walk, hence acyclic graphs report nothing.
The universal completeness sentence of the claim fails (see the
counterexample below): a cycle reached through already-black nodes is
never emitted. -/

theorem band_left {a b : Bool} (h : (a && b) = true) : a = true := by
  cases a
  · simp at h
  · rfl

theorem band_right {a b : Bool} (h : (a && b) = true) : b = true := by
  cases a
  · simp at h
  · simpa using h

theorem drop_pyIndex_mem (l : List String) (x : String) (hx : x ∈ l) :
    ∃ t, l.drop (pyIndex l x) = x :: t := by
  induction l with
  | nil => cases hx
  | cons a rest ih =>
    by_cases ha : a = x
    · exact ⟨rest, by simp [pyIndex, ha]⟩
    · have hx' : x ∈ rest := by
        cases hx with
        | head => exact absurd rfl ha
        | tail _ h => exact h
      obtain ⟨t, ht⟩ := ih hx'
      exact ⟨t, by simp [pyIndex, ha, ht]⟩

theorem getLast?_drop_eq (l : List String) (n : Nat) (h : l.drop n ≠ []) :
    (l.drop n).getLast? = l.getLast? := by
  induction l generalizing n with
  | nil => simp at h
  | cons a rest ih =>
    cases n with
    | zero => rfl
    | succ m =>
      simp only [List.drop_succ_cons] at h ⊢
      have hrest : rest ≠ [] := by
        intro he
        rw [he] at h
        simp at h
      rw [ih m h]
      cases hr : rest with
      | nil => exact absurd hr hrest
      | cons b rest2 => rw [List.getLast?_cons_cons]

theorem chainOk_cons (adj : List (String × List String)) (a : String)
    (l : List String) (h : chainOk adj (a :: l) = true) : chainOk adj l = true := by
  cases l with
  | nil => rfl
  | cons b rest =>
    unfold chainOk at h
    exact band_right h

theorem chainOk_drop (adj : List (String × List String)) (l : List String) (n : Nat)
    (h : chainOk adj l = true) : chainOk adj (l.drop n) = true := by
  induction n generalizing l with
  | zero => simpa using h
  | succ m ih =>
    cases l with
    | nil => rfl
    | cons a rest =>
      simp only [List.drop_succ_cons]
      exact ih rest (chainOk_cons adj a rest h)

theorem chainOk_snoc (adj : List (String × List String)) (l : List String)
    (u nb : String) (hchain : chainOk adj l = true) (hlast : l.getLast? = some u)
    (hedge : (adjGet adj u).contains nb = true) :
    chainOk adj (l ++ [nb]) = true := by
  induction l generalizing u with
  | nil => simp at hlast
  | cons a rest ih =>
    cases hr : rest with
    | nil =>
      subst hr
      have ha : a = u := by
        simpa using hlast
      subst ha
      show chainOk adj (a :: [nb]) = true
      unfold chainOk
      rw [hedge]
      rfl
    | cons b rest2 =>
      subst hr
      unfold chainOk at hchain
      have h1 : (adjGet adj a).contains b = true := band_left hchain
      have h2 : chainOk adj (b :: rest2) = true := band_right hchain
      have hlast2 : (b :: rest2).getLast? = some u := by
        rw [List.getLast?_cons_cons] at hlast
        exact hlast
      have h3 := ih u h2 hlast2 hedge
      have hstep : chainOk adj ((a :: b :: rest2) ++ [nb]) =
          ((adjGet adj a).contains b && chainOk adj (b :: (rest2 ++ [nb]))) := rfl
      rw [hstep, h1]
      simpa using h3

theorem chainOk_of_snoc (adj : List (String × List String)) (l : List String)
    (x : String) (h : chainOk adj (l ++ [x]) = true) : chainOk adj l = true := by
  induction l with
  | nil => rfl
  | cons a rest ih =>
    cases hr : rest with
    | nil => rfl
    | cons b rest2 =>
      subst hr
      have hstep : chainOk adj ((a :: b :: rest2) ++ [x]) =
          ((adjGet adj a).contains b && chainOk adj (b :: (rest2 ++ [x]))) := rfl
      rw [hstep] at h
      have h1 : (adjGet adj a).contains b = true := band_left h
      have h2 : chainOk adj ((b :: rest2) ++ [x]) = true := by
        simpa using band_right h
      have h3 := ih h2
      have hstep2 : chainOk adj (a :: b :: rest2) =
          ((adjGet adj a).contains b && chainOk adj (b :: rest2)) := rfl
      rw [hstep2, h1]
      simpa using h3

theorem colorGet_put (c : List (String × Color)) (k : String) (v : Color)
    (j : String) :
    colorGet (colorPut c k v) j =
      if j = k then (colorGet c k).map (fun _ => v) else colorGet c j := by
  induction c with
  | nil => simp [colorPut, colorGet, alistGet]
  | cons p rest ih =>
    by_cases hp : p.1 = k
    · by_cases hj : j = k
      · subst hj
        simp [colorPut, colorGet, alistGet, hp]
      · have hpj : ¬ p.1 = j := fun hh => hj (by rw [← hh, hp])
        simp only [colorPut, colorGet, alistGet, List.map_cons, if_pos hp] at ih ⊢
        have hkj : ¬ (k : String) = j := fun hh => hj hh.symm
        simp only [if_neg hkj, if_neg hpj]
        simpa [colorPut, colorGet, alistGet, if_neg hj] using ih
    · by_cases hpj : p.1 = j
      · have hj : ¬ j = k := fun hh => hp (by rw [hpj, hh])
        simp [colorPut, colorGet, alistGet, hp, hpj, hj]
      · simp only [colorPut, colorGet, alistGet, List.map_cons, if_neg hp,
          if_neg hpj] at ih ⊢
        by_cases hj : j = k
        · simp only [if_pos hj] at ih ⊢
          simpa [colorPut, colorGet, alistGet, hj, if_neg hp] using ih
        · simpa [colorPut, colorGet, alistGet, if_neg hj] using ih

/-- A recoloured-to-black entry is never gray. -/
theorem map_black_ne_gray (o : Option Color) :
    o.map (fun _ => Color.black) ≠ some Color.gray := by
  cases o <;> simp

/-- DFS soundness invariant: with a chain-shaped path, sound recorded
cycles, gray-iff-on-path colours and a white start node, `dfs` restores
the path, keeps every recorded cycle a closed walk, and keeps the
gray-iff-on-path colour discipline. -/
theorem dfs_inv (adj : List (String × List String)) :
    ∀ (fuel : Nat) (node : String) (s : DfsState),
      chainOk adj (s.path ++ [node]) = true →
      (∀ c ∈ s.cycles, isClosedWalk adj c = true) →
      (∀ k, colorGet s.color k = some Color.gray ↔ k ∈ s.path) →
      colorGet s.color node = some Color.white →
      (dfs adj fuel node s).path = s.path ∧
      (∀ c ∈ (dfs adj fuel node s).cycles, isClosedWalk adj c = true) ∧
      (∀ k, colorGet (dfs adj fuel node s).color k = some Color.gray ↔ k ∈ s.path) := by
  intro fuel
  induction fuel with
  | zero =>
    intro node s hchain hsound hgray hwhite
    exact ⟨rfl, hsound, hgray⟩
  | succ n ih =>
    intro node s hchain hsound hgray hwhite
    have hnode_not : node ∉ s.path := by
      intro hmem
      have hg := (hgray node).mpr hmem
      rw [hwhite] at hg
      cases hg
    have hs1gray : ∀ k, colorGet (colorPut s.color node Color.gray) k =
        some Color.gray ↔ k ∈ s.path ++ [node] := by
      intro k
      rw [colorGet_put]
      by_cases hk : k = node
      · subst hk
        rw [if_pos rfl, hwhite]
        simp
      · rw [if_neg hk]
        rw [hgray k]
        simp [hk]
    -- the invariant survives the fold over the neighbour list
    have hfold : ∀ (nbs : List String), (∀ x ∈ nbs, x ∈ adjGet adj node) →
        ∀ (t : DfsState), t.path = s.path ++ [node] →
          (∀ c ∈ t.cycles, isClosedWalk adj c = true) →
          (∀ k, colorGet t.color k = some Color.gray ↔ k ∈ t.path) →
          (nbs.foldl
            (fun t nb =>
              if !(t.color.any (fun p => p.1 = nb)) then t
              else
                match colorGet t.color nb with
                | some Color.gray =>
                  { t with cycles :=
                      t.cycles ++ [(t.path.drop (pyIndex t.path nb)) ++ [nb]] }
                | some Color.white => dfs adj n nb t
                | _ => t) t).path = s.path ++ [node] ∧
          (∀ c ∈ (nbs.foldl
            (fun t nb =>
              if !(t.color.any (fun p => p.1 = nb)) then t
              else
                match colorGet t.color nb with
                | some Color.gray =>
                  { t with cycles :=
                      t.cycles ++ [(t.path.drop (pyIndex t.path nb)) ++ [nb]] }
                | some Color.white => dfs adj n nb t
                | _ => t) t).cycles, isClosedWalk adj c = true) ∧
          (∀ k, colorGet (nbs.foldl
            (fun t nb =>
              if !(t.color.any (fun p => p.1 = nb)) then t
              else
                match colorGet t.color nb with
                | some Color.gray =>
                  { t with cycles :=
                      t.cycles ++ [(t.path.drop (pyIndex t.path nb)) ++ [nb]] }
                | some Color.white => dfs adj n nb t
                | _ => t) t).color k = some Color.gray ↔
            k ∈ s.path ++ [node]) := by
      intro nbs
      induction nbs with
      | nil =>
        intro _ t htp htsound htgray
        simp only [List.foldl_nil]
        refine ⟨htp, htsound, ?_⟩
        intro k
        rw [htgray k, htp]
      | cons nb rest ihn =>
        intro hmem t htp htsound htgray
        have hnb : nb ∈ adjGet adj node := hmem nb (List.mem_cons_self nb rest)
        have hrest : ∀ x ∈ rest, x ∈ adjGet adj node :=
          fun x hx => hmem x (List.mem_cons_of_mem nb hx)
        simp only [List.foldl_cons]
        by_cases hkey : (t.color.any (fun p => p.1 = nb)) = true
        · rw [if_neg (by simp [hkey])]
          cases hcol : colorGet t.color nb with
          | none => exact ihn hrest t htp htsound htgray
          | some c =>
            cases c with
            | white =>
              -- recursive descent into a white neighbour
              have hchain_t : chainOk adj t.path = true := by
                rw [htp]
                exact hchain
              have hlast_t : t.path.getLast? = some node := by
                rw [htp]
                exact List.getLast?_concat _
              have hcont : (adjGet adj node).contains nb = true := by
                simpa using hnb
              have hchain2 : chainOk adj (t.path ++ [nb]) = true :=
                chainOk_snoc adj t.path node nb hchain_t hlast_t hcont
              have hrec := ih nb t hchain2 htsound htgray hcol
              refine ihn hrest (dfs adj n nb t) ?_ hrec.2.1 ?_
              · rw [hrec.1, htp]
              · intro k
                rw [hrec.1]
                exact hrec.2.2 k
            | gray =>
              -- back edge: a new cycle is recorded
              have hin : nb ∈ t.path := (htgray nb).mp hcol
              obtain ⟨tail, hdrop⟩ := drop_pyIndex_mem t.path nb hin
              have hchain_t : chainOk adj t.path = true := by
                rw [htp]
                exact hchain
              have hlast_t : t.path.getLast? = some node := by
                rw [htp]
                exact List.getLast?_concat _
              have hcont : (adjGet adj node).contains nb = true := by
                simpa using hnb
              have hdropne : t.path.drop (pyIndex t.path nb) ≠ [] := by
                rw [hdrop]
                simp
              have hlastd : (t.path.drop (pyIndex t.path nb)).getLast? = some node := by
                rw [getLast?_drop_eq t.path _ hdropne]
                exact hlast_t
              have hchain_c : chainOk adj
                  ((t.path.drop (pyIndex t.path nb)) ++ [nb]) = true :=
                chainOk_snoc adj _ node nb (chainOk_drop adj _ _ hchain_t) hlastd hcont
              have hclosed : isClosedWalk adj
                  ((t.path.drop (pyIndex t.path nb)) ++ [nb]) = true := by
                unfold isClosedWalk
                rw [hchain_c]
                rw [hdrop]
                have hl : (nb :: (tail ++ [nb])).getLast? = some nb := by
                  rw [← List.cons_append]
                  exact List.getLast?_concat _
                simp [hl]
              refine ihn hrest _ htp ?_ htgray
              intro c hc
              rcases List.mem_append.mp hc with hc1 | hc2
              · exact htsound c hc1
              · rw [List.mem_singleton.mp hc2]
                exact hclosed
            | black => exact ihn hrest t htp htsound htgray
        · rw [if_pos (by simp [Bool.of_not_eq_true hkey])]
          exact ihn hrest t htp htsound htgray
    have key := hfold (adjGet adj node) (fun x hx => hx)
      { s with color := colorPut s.color node Color.gray, path := s.path ++ [node] }
      rfl hsound hs1gray
    simp only [dfs]
    refine ⟨?_, key.2.1, ?_⟩
    · rw [key.1]
      simp
    · intro k
      rw [colorGet_put]
      by_cases hk : k = node
      · subst hk
        rw [if_pos rfl]
        constructor
        · intro hg
          exact absurd hg (map_black_ne_gray _)
        · intro hmem
          exact absurd hmem hnode_not
      · rw [if_neg hk]
        rw [key.2.2 k]
        simp [hk]

theorem colorGet_init_not_gray (l : List (String × List String)) (j : String) :
    colorGet (l.map (fun p => (p.1, Color.white))) j ≠ some Color.gray := by
  induction l with
  | nil => simp [colorGet, alistGet]
  | cons p rest ih =>
    simp only [List.map_cons, colorGet, alistGet]
    by_cases hp : p.1 = j
    · simp [hp]
    · simpa [colorGet, alistGet, hp] using ih

/-- Soundness of `detect_cycles`: every reported entry is a closed walk
along the dependency edges. -/
theorem detect_cycles_sound (tasks : List TaskRec) :
    ∀ c ∈ detect_cycles tasks, isClosedWalk (buildAdj tasks) c = true := by
  have hstep : ∀ (ps : List (String × List String)) (s : DfsState),
      s.path = [] →
      (∀ c ∈ s.cycles, isClosedWalk (buildAdj tasks) c = true) →
      (∀ k, colorGet s.color k = some Color.gray ↔ k ∈ s.path) →
      (∀ c ∈ (ps.foldl
          (fun s p =>
            if colorGet s.color p.1 = some Color.white then
              dfs (buildAdj tasks) (buildAdj tasks).length p.1 s
            else s) s).cycles,
        isClosedWalk (buildAdj tasks) c = true) := by
    intro ps
    induction ps with
    | nil =>
      intro s hp hsound hgray
      simpa using hsound
    | cons q rest ihp =>
      intro s hp hsound hgray
      simp only [List.foldl_cons]
      by_cases hw : colorGet s.color q.1 = some Color.white
      · rw [if_pos hw]
        have h := dfs_inv (buildAdj tasks) (buildAdj tasks).length q.1 s
          (by rw [hp]; rfl) hsound hgray hw
        refine ihp _ ?_ h.2.1 ?_
        · rw [h.1, hp]
        · intro k
          rw [h.1]
          exact h.2.2 k
      · rw [if_neg hw]
        exact ihp s hp hsound hgray
  intro c hc
  refine hstep (buildAdj tasks)
    { color := (buildAdj tasks).map (fun p => (p.1, Color.white)),
      path := [], cycles := [] }
    rfl (by simp) ?_ c hc
  intro k
  constructor
  · intro hg
    exact absurd hg (colorGet_init_not_gray _ k)
  · intro hk
    cases hk

/-- Graph with two cycles sharing nodes A and C, of which the DFS
reports only the one reached first: A→D→C→A is emitted, A→B→C→A is not
(B is reached when C is already black). -/
def tasksC9 : List TaskRec :=
  [⟨"A", ["D", "B"]⟩, ⟨"D", ["C"]⟩, ⟨"C", ["A"]⟩, ⟨"B", ["C"]⟩]

/-- Counterexample to C9's final sentence ("every cycle present in the
input graph is reported at least once"): the cycle A→B→C→A is a closed
walk of `tasksC9`, yet the only reported cycle is [A, D, C, A], which
does not even contain B — so no report covers the A→B→C→A cycle. -/
theorem cycle_report_completeness_counterexample :
    isClosedWalk (buildAdj tasksC9) ["A", "B", "C", "A"] = true ∧
    detect_cycles tasksC9 = [["A", "D", "C", "A"]] ∧
    (detect_cycles tasksC9).all (fun c => !(c.contains "B")) = true := by
  refine ⟨?_, ?_, ?_⟩ <;> decide

/-- Amended claim C9: `detect_cycles` returns the empty list on every
acyclic graph; on {A→B, B→A} it reports a cycle containing both A and B;
on {X→X} it reports a one-node cycle containing X; and every reported
entry is a genuine cycle (a closed walk) of the input graph.  When
distinct cycles share nodes, a cycle reached through already-finished
nodes may go unreported, so not every cycle present is reported. -/
theorem detect_cycles_spec :
    (∀ ts, (∀ l, isClosedWalk (buildAdj ts) l = false) → detect_cycles ts = []) ∧
    ((detect_cycles [⟨"A", ["B"]⟩, ⟨"B", ["A"]⟩]).any
        (fun c => c.contains "A" && c.contains "B") = true) ∧
    ((detect_cycles [⟨"X", ["X"]⟩]).any (fun c => c.contains "X") = true) ∧
    (∀ ts c, c ∈ detect_cycles ts → isClosedWalk (buildAdj ts) c = true) := by
  refine ⟨?_, by decide, by decide, fun ts c hc => detect_cycles_sound ts c hc⟩
  intro ts hacyclic
  cases hd : detect_cycles ts with
  | nil => rfl
  | cons c rest =>
    have hc : c ∈ detect_cycles ts := by
      rw [hd]
      exact List.mem_cons_self c rest
    have hsound := detect_cycles_sound ts c hc
    rw [hacyclic c] at hsound
    cases hsound

/-- Witness for C9's acyclicity part at the one-node dependency-free
graph, whose closed-walk-freeness is discharged explicitly. -/
theorem detect_cycles_spec_witness :
    detect_cycles [⟨"A", []⟩] = [] := by
  have hadj : ∀ a, adjGet (buildAdj [⟨"A", ([] : List String)⟩]) a = [] := by
    intro a
    by_cases h : ("A" : String) = a <;>
      simp [buildAdj, alistSet, adjGet, alistGet, h]
  refine detect_cycles_spec.1 [⟨"A", []⟩] ?_
  intro l
  cases l with
  | nil => rfl
  | cons a t =>
    cases t with
    | nil => rfl
    | cons b t2 =>
      unfold isClosedWalk chainOk
      rw [hadj a]
      simp

end Vibraphone
